import Mathlib

/-!
Verification of the addon-index generator (`tools/generate-json.py`).

The script scans a directory of Blender addons, statically extracts each
addon's `bl_info` metadata dictionary, validates required keys, augments the
dictionary with a download URL and a source label, optionally merges with a
previously written `index.json`, and writes the aggregate back out as JSON.

This file gives a shallow embedding of that program: Python values are the
mutual inductive family `PyVal`/`PyList`/`PyDict`, JSON documents are
`Json`/`JList`/`JObj`, and the Python AST fragment relevant to
`ast.literal_eval` is `Expr`/`EList`/`EDict`.  Fallible Python code is
embedded as `Except String` (the string names the Python exception).
-/

mutual
/-- A Python value, as produced by `ast.literal_eval` and handled by the
script.  Dictionary keys are strings, matching the `bl_info` data model
(a mapping from string keys to literal values).  `PyDict` preserves
insertion order, like a CPython `dict`. -/
inductive PyVal where
  | str (s : String)
  | int (n : Int)
  | bool (b : Bool)
  | noneVal
  | tuple (xs : PyList)
  | list (xs : PyList)
  | dict (xs : PyDict)
deriving DecidableEq

inductive PyList where
  | nil
  | cons (v : PyVal) (rest : PyList)
deriving DecidableEq

inductive PyDict where
  | nil
  | cons (k : String) (v : PyVal) (rest : PyDict)
deriving DecidableEq
end

namespace PyDict

/-- `k in d` for a Python dict. -/
def hasKey : PyDict → String → Bool
  | .nil, _ => false
  | .cons k' _ rest, k => k' == k || hasKey rest k

/-- `d[k]` for a Python dict, as an `Option`. -/
def getVal : PyDict → String → Option PyVal
  | .nil, _ => Option.none
  | .cons k' v rest, k => if k' = k then some v else getVal rest k

/-- `d[k] = v` for a Python dict: replaces the value in place when the key
is present, appends a new binding otherwise. -/
def setKey : PyDict → String → PyVal → PyDict
  | .nil, k, v => .cons k v .nil
  | .cons k' v' rest, k, v =>
    if k' = k then .cons k' v rest else .cons k' v' (setKey rest k v)

/-- `d1.update(d2)` for Python dicts: iterates over `d2` in order, setting
each binding in `d1`. -/
def update : PyDict → PyDict → PyDict
  | d1, .nil => d1
  | d1, .cons k v rest => update (setKey d1 k v) rest

/-- The keys of a dict, in insertion order. -/
def keys : PyDict → List String
  | .nil => []
  | .cons k _ rest => k :: keys rest

/-- The dict as a key-value list, in insertion order. -/
def toList : PyDict → List (String × PyVal)
  | .nil => []
  | .cons k v rest => (k, v) :: toList rest

end PyDict

mutual
/-- A JSON document, as written by `json.dump` and read by `json.load`.
Object member order is the order in the serialized text (floats do not
occur: the script only ever serializes values it read from `bl_info`
literals or from a previous run's output, modeled without floats). -/
inductive Json where
  | str (s : String)
  | int (n : Int)
  | bool (b : Bool)
  | null
  | arr (xs : JList)
  | obj (xs : JObj)
deriving DecidableEq

inductive JList where
  | nil
  | cons (v : Json) (rest : JList)
deriving DecidableEq

inductive JObj where
  | nil
  | cons (k : String) (v : Json) (rest : JObj)
deriving DecidableEq
end

/-- Code-point lexicographic order on character lists: how Python compares
the (string) keys that `json.dump(…, sort_keys=True)` sorts by. -/
def charListLe : List Char → List Char → Bool
  | [], _ => true
  | _ :: _, [] => false
  | c :: cs, d :: ds =>
    if c.val < d.val then true
    else if d.val < c.val then false
    else charListLe cs ds

/-- Python's `<=` on strings (code-point lexicographic). -/
def strLe (s t : String) : Bool := charListLe s.data t.data

namespace JObj

/-- Insert one member into a key-sorted object, keeping it sorted. -/
def orderedInsert (k : String) (v : Json) : JObj → JObj
  | .nil => .cons k v .nil
  | .cons k' v' rest =>
    if strLe k k' then .cons k v (.cons k' v' rest)
    else .cons k' v' (orderedInsert k v rest)

/-- Sort an object's members by key (insertion sort): the member order
`json.dump(…, sort_keys=True)` writes. -/
def sortByKey : JObj → JObj
  | .nil => .nil
  | .cons k v rest => orderedInsert k v (sortByKey rest)

/-- `o[k]` lookup in a JSON object (first match). -/
def getVal : JObj → String → Option Json
  | .nil, _ => Option.none
  | .cons k' v rest, k => if k' = k then some v else getVal rest k

end JObj

namespace PyDict

/-- Insert one binding into a key-sorted dict, keeping it sorted. -/
def orderedInsert (k : String) (v : PyVal) : PyDict → PyDict
  | .nil => .cons k v .nil
  | .cons k' v' rest =>
    if strLe k k' then .cons k v (.cons k' v' rest)
    else .cons k' v' (orderedInsert k v rest)

/-- Sort a dict's bindings by key (insertion sort). -/
def sortByKey : PyDict → PyDict
  | .nil => .nil
  | .cons k v rest => orderedInsert k v (sortByKey rest)

end PyDict

mutual
/-- `json.dump(v, …, sort_keys=True)`: the JSON document whose text the
serializer writes for a Python value.  Tuples are written as JSON arrays;
each object's members appear in sorted key order. -/
def dumpVal : PyVal → Json
  | .str s => .str s
  | .int n => .int n
  | .bool b => .bool b
  | .noneVal => .null
  | .tuple xs => .arr (dumpList xs)
  | .list xs => .arr (dumpList xs)
  | .dict xs => .obj (JObj.sortByKey (dumpPairs xs))
termination_by structural v => v

def dumpList : PyList → JList
  | .nil => .nil
  | .cons v vs => .cons (dumpVal v) (dumpList vs)
termination_by structural v => v

def dumpPairs : PyDict → JObj
  | .nil => .nil
  | .cons k v ps => .cons k (dumpVal v) (dumpPairs ps)
termination_by structural v => v
end

mutual
/-- `json.load`: the Python value a JSON document parses back to.  JSON
arrays become Python lists (never tuples); object member order is kept. -/
def loadVal : Json → PyVal
  | .str s => .str s
  | .int n => .int n
  | .bool b => .bool b
  | .null => .noneVal
  | .arr xs => .list (loadList xs)
  | .obj xs => .dict (loadPairs xs)
termination_by structural v => v

def loadList : JList → PyList
  | .nil => .nil
  | .cons v vs => .cons (loadVal v) (loadList vs)
termination_by structural v => v

def loadPairs : JObj → PyDict
  | .nil => .nil
  | .cons k v ps => .cons k (loadVal v) (loadPairs ps)
termination_by structural v => v
end

mutual
/-- Canonical form of a Python value under Python's `==`: dictionaries
compare order-insensitively, so `normVal` sorts every dict level by key.
Two values with duplicate-free dict keys are Python-`==` iff their
canonical forms are equal. -/
def normVal : PyVal → PyVal
  | .str s => .str s
  | .int n => .int n
  | .bool b => .bool b
  | .noneVal => .noneVal
  | .tuple xs => .tuple (normList xs)
  | .list xs => .list (normList xs)
  | .dict xs => .dict (PyDict.sortByKey (normPairs xs))
termination_by structural v => v

def normList : PyList → PyList
  | .nil => .nil
  | .cons v vs => .cons (normVal v) (normList vs)
termination_by structural v => v

def normPairs : PyDict → PyDict
  | .nil => .nil
  | .cons k v ps => .cons k (normVal v) (normPairs ps)
termination_by structural v => v
end

mutual
/-- `true` when a value contains no tuple anywhere (tuples are the one
literal kind JSON cannot represent losslessly). -/
def tupleFree : PyVal → Bool
  | .str _ => true
  | .int _ => true
  | .bool _ => true
  | .noneVal => true
  | .tuple _ => false
  | .list xs => tupleFreeList xs
  | .dict xs => tupleFreePairs xs
termination_by structural v => v

def tupleFreeList : PyList → Bool
  | .nil => true
  | .cons v vs => tupleFree v && tupleFreeList vs
termination_by structural v => v

def tupleFreePairs : PyDict → Bool
  | .nil => true
  | .cons _ v ps => tupleFree v && tupleFreePairs ps
termination_by structural v => v
end

/-- Python equality on values: dictionaries compare order-insensitively at
every nesting level. -/
def pyEquiv (a b : PyVal) : Prop := normVal a = normVal b

/-- Decidable equality for `Except`, so that runs of the embedded program
can be compared by `decide`. -/
instance exceptDecEq {e a : Type} [DecidableEq e] [DecidableEq a] :
    DecidableEq (Except e a) := fun x y =>
  match x, y with
  | .ok u, .ok v =>
    if h : u = v then .isTrue (congrArg Except.ok h)
    else .isFalse (fun hc => h (Except.ok.inj hc))
  | .error u, .error v =>
    if h : u = v then .isTrue (congrArg Except.error h)
    else .isFalse (fun hc => h (Except.error.inj hc))
  | .ok _, .error _ => .isFalse (fun hc => Except.noConfusion hc)
  | .error _, .ok _ => .isFalse (fun hc => Except.noConfusion hc)

mutual
/-- A Python expression, at the granularity `ast.literal_eval` cares about:
literal displays are kept structurally, and every node kind that literal
evaluation rejects (calls, name references, operators, …) is collapsed into
the single constructor `nonLiteral`.  Dictionary displays carry string
keys, matching the `bl_info` data model. -/
inductive Expr where
  | strLit (s : String)
  | intLit (n : Int)
  | boolLit (b : Bool)
  | noneLit
  | tupleLit (xs : EList)
  | listLit (xs : EList)
  | dictLit (ps : EDict)
  | nonLiteral
deriving DecidableEq

inductive EList where
  | nil
  | cons (e : Expr) (rest : EList)
deriving DecidableEq

inductive EDict where
  | nil
  | cons (k : String) (v : Expr) (rest : EDict)
deriving DecidableEq
end

mutual
/-- `ast.literal_eval` on an expression node: evaluates literal displays,
returns `Option.none` (the model of raising `ValueError`) on any node that
would require execution.  Dictionary displays are evaluated left to right
and inserted in order, so a duplicated key keeps the rightmost value. -/
def literalEval : Expr → Option PyVal
  | .strLit s => some (.str s)
  | .intLit n => some (.int n)
  | .boolLit b => some (.bool b)
  | .noneLit => some .noneVal
  | .tupleLit xs => (literalEvalList xs).map .tuple
  | .listLit xs => (literalEvalList xs).map .list
  | .dictLit ps => (literalEvalDict ps).map .dict
  | .nonLiteral => Option.none
termination_by structural e => e

def literalEvalList : EList → Option PyList
  | .nil => some .nil
  | .cons e rest =>
    match literalEval e with
    | some v => (literalEvalList rest).map (.cons v)
    | Option.none => Option.none
termination_by structural e => e

def literalEvalDict : EDict → Option PyDict
  | .nil => some .nil
  | .cons k e rest =>
    match literalEval e with
    | some v =>
      match literalEvalDict rest with
      | some d => some (PyDict.update (.cons k v .nil) d)
      | Option.none => Option.none
    | Option.none => Option.none
termination_by structural e => e
end

/-- An assignment target: a plain identifier (which has an `id` attribute),
or any other target form (tuple, attribute, subscript, …), for which
`getattr(target, 'id', '')` yields the default `''`. -/
inductive Target where
  | ident (id : String)
  | otherTarget
deriving DecidableEq

/-- `getattr(target, 'id', '')`. -/
def Target.getId : Target → String
  | .ident s => s
  | .otherTarget => ""

/-- A top-level statement: an assignment (with its target list and
right-hand side), or any other statement kind (the script skips those). -/
inductive Stmt where
  | assign (targets : List Target) (value : Expr)
  | otherStmt
deriving DecidableEq

/-- The outcome of opening, reading and `ast.parse`-ing one source file:
the bytes fail to decode as text, or the text fails to parse, or a module
with its list of top-level statements. -/
inductive PySource where
  | undecodable
  | syntaxError
  | module (body : List Stmt)
deriving DecidableEq

def REQUIRED_KEYS : List String := ["name", "blender"]

def RECOMMENDED_KEYS : List String :=
  ["author", "description", "location", "wiki_url", "category"]

def CURRENT_SCHEMA_VERSION : Int := 1

/-- Scan of `tree.body` in `parse_blinfo`: skip non-assignments,
assignments with more than one target, and assignments whose single target
is not the identifier `bl_info`; on the first match, `ast.literal_eval`
the right-hand side.  A `ValueError` raised by `ast.literal_eval` is not
caught (`.error`). -/
def findBlinfo : List Stmt → Except String (Option PyVal)
  | [] => .ok Option.none
  | .otherStmt :: rest => findBlinfo rest
  | .assign targets value :: rest =>
    match targets with
    | [t] =>
      if t.getId = "bl_info" then
        match literalEval value with
        | some v => .ok (some v)
        | Option.none => .error "ValueError: malformed node or string"
      else findBlinfo rest
    | _ => findBlinfo rest

/-- `parse_blinfo`: parses a source file, returning its `bl_info` value.
An unreadable file (`UnicodeDecodeError`) and an unparsable file
(`SyntaxError`) are caught and yield `Option.none`, as does a module with
no matching top-level assignment; an assignment whose right-hand side is
not literal-evaluable propagates `ValueError` to the caller. -/
def parse_blinfo : PySource → Except String (Option PyVal)
  | .undecodable => .ok Option.none
  | .syntaxError => .ok Option.none
  | .module body => findBlinfo body

/-- `needle` occurs as a contiguous run inside `hay`: Python's substring
containment, used by `key in s` when `s` is a `str`. -/
def charPrefixOf : List Char → List Char → Bool
  | [], _ => true
  | _ :: _, [] => false
  | c :: cs, d :: ds => c == d && charPrefixOf cs ds

def charInfixOf (needle hay : List Char) : Bool :=
  if charPrefixOf needle hay then true
  else
    match hay with
    | [] => false
    | _ :: rest => charInfixOf needle rest

/-- Python's `key in container` for a string key, as used on `bl_info`:
key lookup on a dict, substring test on a string, element test on a list
or tuple, and a `TypeError` on the remaining types. -/
def pyContainsStr (container : PyVal) (key : String) : Except String Bool :=
  match container with
  | .dict xs => .ok (xs.hasKey key)
  | .str s => .ok (charInfixOf key.data s.data)
  | .list xs => .ok (pyListHasStr xs key)
  | .tuple xs => .ok (pyListHasStr xs key)
  | .int _ => .error "TypeError: argument of type 'int' is not iterable"
  | .bool _ => .error "TypeError: argument of type 'bool' is not iterable"
  | .noneVal => .error "TypeError: argument of type 'NoneType' is not iterable"
where
  pyListHasStr : PyList → String → Bool
    | .nil, _ => false
    | .cons v rest, k => v == PyVal.str k || pyListHasStr rest k

/-- The list comprehension `[key for key in keys if key not in bl_info]`. -/
def missingKeys (ks : List String) (bl_info : PyVal) : Except String (List String) :=
  match ks with
  | [] => .ok []
  | k :: rest =>
    match pyContainsStr bl_info k with
    | .error e => .error e
    | .ok contained =>
      match missingKeys rest bl_info with
      | .error e => .error e
      | .ok ms => .ok (if contained then ms else k :: ms)

/-- `blinfo_to_json`: checks required keys (returning `Option.none` when
one is missing), logs recommended keys, then produces
`bl_info.copy()` updated with `download_url` and `source`.  The `key in
bl_info` tests and the `.copy()`/`.update()` calls raise (`.error`) when
`bl_info` is not of a suitable type. -/
def blinfo_to_json (bl_info : PyVal) (addon_id source url : String) :
    Except String (Option PyVal) :=
  match missingKeys REQUIRED_KEYS bl_info with
  | .error e => .error e
  | .ok missingReq =>
    if missingReq.isEmpty then
      match missingKeys RECOMMENDED_KEYS bl_info with
      | .error e => .error e
      | .ok _missingRec =>
        match bl_info with
        | .dict xs =>
          .ok (some (.dict (xs.update
            (.cons "download_url" (.str url) (.cons "source" (.str source) .nil)))))
        | _ => .error "AttributeError: no copy/update"
    else
      .ok Option.none

/-- `item.name.startswith('.')`. -/
def startsWithDot (s : String) : Bool :=
  match s.data with
  | [] => false
  | c :: _ => c = '.'

/-- `os.path.splitext` on a plain directory-entry name (no path
separators): splits at the last dot, except that a name consisting of
leading dots only up to that last dot (such as `.hidden`) does not split. -/
def splitext (p : String) : String × String :=
  match lastDotIdx 0 Option.none p.data with
  | Option.none => (p, "")
  | some i =>
    if (p.data.take i).all (· = '.') then (p, "")
    else (String.mk (p.data.take i), String.mk (p.data.drop i))
where
  lastDotIdx (pos : Nat) (acc : Option Nat) : List Char → Option Nat
    | [] => acc
    | c :: rest => lastDotIdx (pos + 1) (if c = '.' then some pos else acc) rest

/-- `urllib.parse.urljoin`, restricted to the shape this script uses: a
base URL joined with a bare relative file name. -/
def urljoin (base rel : String) : String := base ++ rel

/-- One entry of the scanned directory, as `os.scandir` presents it to
`iter_addons`: a file with the source text behind it, or a directory
together with the outcome of its `__init__.py` when that file exists. -/
inductive DirEntry where
  | file (name : String) (content : PySource)
  | dir (name : String) (initContent : Option PySource)
deriving DecidableEq

def DirEntry.name : DirEntry → String
  | .file n _ => n
  | .dir n _ => n

/-- `iter_addons`: skips entries whose name starts with `.`; a directory
without `__init__.py` is skipped (logged); a directory with one yields
`(base, its __init__.py, '.zip')`; a file yields `(base, itself, '.py')`,
where `base` is the entry name minus its extension. -/
def iter_addons (entries : List DirEntry) : List (String × PySource × String) :=
  entries.filterMap fun item =>
    if startsWithDot item.name then Option.none
    else
      let base := (splitext item.name).1
      match item with
      | .dir _ initContent =>
        match initContent with
        | Option.none => Option.none
        | some c => some (base, c, ".zip")
      | .file _ content => some (base, content, ".py")

/-- The loop body of `parse_addons`, folded over the scanned units with the
accumulated `json_data` dict: a unit whose `parse_blinfo` or
`blinfo_to_json` yields no entry is skipped; a successful unit executes
`json_data[addon_id] = as_json`; an uncaught exception aborts the run. -/
def parse_addons_go (addons_source addons_base_url : String) :
    List (String × PySource × String) → PyDict → Except String PyDict
  | [], acc => .ok acc
  | (addon_id, fsrc, addon_ext) :: rest, acc =>
    match parse_blinfo fsrc with
    | .error e => .error e
    | .ok Option.none => parse_addons_go addons_source addons_base_url rest acc
    | .ok (some bl_info) =>
      let url := urljoin addons_base_url (addon_id ++ addon_ext)
      match blinfo_to_json bl_info addon_id addons_source url with
      | .error e => .error e
      | .ok Option.none => parse_addons_go addons_source addons_base_url rest acc
      | .ok (some as_json) =>
        parse_addons_go addons_source addons_base_url rest (acc.setKey addon_id as_json)

/-- `parse_addons`: parses info of all addons in the given directory. -/
def parse_addons (entries : List DirEntry) (addons_source addons_base_url : String) :
    Except String PyDict :=
  parse_addons_go addons_source addons_base_url (iter_addons entries) .nil

/-- Python `==` between a loaded JSON scalar and the integer constant the
schema check compares against (`True == 1` holds in Python). -/
def pyEqInt (v : PyVal) (n : Int) : Bool :=
  match v with
  | .int m => m == n
  | .bool b => (if b then (1 : Int) else 0) == n
  | _ => false

/-- `parse_existing_index`: loads the existing index file, checks
`schema-version` against `CURRENT_SCHEMA_VERSION` (raising `ValueError`
when it is missing or different), and returns the `addons` member. -/
def parse_existing_index (fileContent : Json) : Except String PyVal :=
  match loadVal fileContent with
  | .dict xs =>
    let schema_version := (xs.getVal "schema-version").getD (.str "-missing-")
    if pyEqInt schema_version CURRENT_SCHEMA_VERSION then
      match xs.getVal "addons" with
      | some a => .ok a
      | Option.none => .error "KeyError: addons"
    else .error "ValueError: Unsupported schema"
  | _ => .error "AttributeError: no get"

/-- `write_index_file`: serializes the document with
`json.dump(…, indent=4, sort_keys=True)`; the result is the content of the
written `index.json`. -/
def write_index_file (addon_data : PyVal) : Json := dumpVal addon_data

/-- `main`: optionally loads `index.json` (merge mode), scans the addons
directory, overlays the new entries onto the loaded ones with
`addon_data.update(new_addon_data)`, wraps the result with the schema
version, and writes it out.  `.ok` carries the written file content; any
uncaught exception is `.error`, and nothing is written in that case. -/
def mainRun (merge : Bool) (indexFile : Option Json) (entries : List DirEntry)
    (source base : String) : Except String Json :=
  let init : Except String PyVal :=
    if merge then
      match indexFile with
      | some f => parse_existing_index f
      | Option.none => .error "FileNotFoundError: index.json"
    else .ok (.dict .nil)
  match init with
  | .error e => .error e
  | .ok addon_data =>
    match parse_addons entries source base with
    | .error e => .error e
    | .ok new_addon_data =>
      match addon_data with
      | .dict xs =>
        let final_json : PyVal :=
          .dict (.cons "schema-version" (.int CURRENT_SCHEMA_VERSION)
            (.cons "addons" (.dict (xs.update new_addon_data)) .nil))
        .ok (write_index_file final_json)
      | _ => .error "AttributeError: no update"

/-- `main` together with the state of `index.json` on disk: the run reads
and writes the same fixed path, so on success the file holds the written
document, and on an uncaught exception it is left untouched. -/
def mainFileState (merge : Bool) (indexFile : Option Json) (entries : List DirEntry)
    (source base : String) : Option Json × Except String Unit :=
  match mainRun merge indexFile entries source base with
  | .ok written => (some written, .ok ())
  | .error e => (indexFile, .error e)

/-- The document `main` wraps the merged addons mapping in before writing:
`{'schema-version': CURRENT_SCHEMA_VERSION, 'addons': addons}`. -/
def indexDocument (addons : PyDict) : PyVal :=
  .dict (.cons "schema-version" (.int CURRENT_SCHEMA_VERSION)
    (.cons "addons" (.dict addons) .nil))

/-- An index entry carrying both `REQUIRED_KEYS`. -/
def hasRequiredKeys (v : PyVal) : Bool :=
  match v with
  | .dict xs => xs.hasKey "name" && xs.hasKey "blender"
  | _ => false

/-- A serialized index entry carrying both `REQUIRED_KEYS`. -/
def jsonHasRequiredKeys (v : Json) : Bool :=
  match v with
  | .obj ps => (ps.getVal "name").isSome && (ps.getVal "blender").isSome
  | _ => false

/-- The `addons` object of a written index document (empty when the
document is not of the written shape). -/
def writtenAddons (doc : Json) : JObj :=
  match doc with
  | .obj ps =>
    match ps.getVal "addons" with
    | some (.obj es) => es
    | _ => .nil
  | _ => .nil

/-- A dict whose bindings are in weakly ascending key order. -/
def KeySortedP : PyDict → Prop
  | .nil => True
  | .cons k _ rest =>
    (match rest with
     | .nil => True
     | .cons k' _ _ => strLe k k' = true) ∧ KeySortedP rest

/-- A `bl_info` declaration with both required keys whose `blender` value
is a tuple, as real addons declare it. -/
def sampleBlinfo : PyDict :=
  .cons "name" (.str "Sample Addon")
    (.cons "blender" (.tuple (.cons (.int 2) (.cons (.int 80) .nil))) .nil)

/-- A tuple-free variant of `sampleBlinfo`. -/
def sampleBlinfoNoTuple : PyDict :=
  .cons "name" (.str "Sample Addon") (.cons "blender" (.str "2.80") .nil)

/-- A source module declaring `sampleBlinfo` as its `bl_info`. -/
def sampleSource : PySource :=
  .module [.assign [.ident "bl_info"]
    (.dictLit (.cons "name" (.strLit "Sample Addon")
      (.cons "blender" (.tupleLit (.cons (.intLit 2) (.cons (.intLit 80) .nil))) .nil)))]

/-- A source module whose `bl_info` right-hand side is not a literal
(for example a function call): `ast.literal_eval` raises on it. -/
def sampleBadSource : PySource :=
  .module [.assign [.ident "bl_info"] .nonLiteral]

/-- An existing `index.json` with schema version 2. -/
def sampleSchema2Index : Json :=
  .obj (.cons "schema-version" (.int 2) (.cons "addons" (.obj .nil) .nil))

/-- The statements `parse_blinfo` reacts to: a single-target assignment
whose target is the identifier `bl_info`. -/
def isBlinfoAssign : Stmt → Bool
  | .assign [t] _ => t.getId == "bl_info"
  | _ => false

/-- An existing schema-1 `index.json` whose single entry `x` carries
neither required key. -/
def samplePriorIndex : Json :=
  .obj (.cons "schema-version" (.int 1)
    (.cons "addons" (.obj (.cons "x" (.obj .nil) .nil)) .nil))

namespace PyDict

theorem getVal_setKey_self : ∀ (d : PyDict) (k : String) (v : PyVal),
    (d.setKey k v).getVal k = some v
  | .nil, k, v => by simp [setKey, getVal]
  | .cons k' v' rest, k, v => by
    by_cases h : k' = k
    · simp [setKey, h, getVal]
    · simp [setKey, h, getVal, getVal_setKey_self rest k v]

theorem getVal_setKey_ne : ∀ (d : PyDict) (k : String) (v : PyVal) (k2 : String),
    k2 ≠ k → (d.setKey k v).getVal k2 = d.getVal k2
  | .nil, k, v, k2, hne => by
    have hne' : k ≠ k2 := Ne.symm hne
    simp [setKey, getVal, hne']
  | .cons k' v' rest, k, v, k2, hne => by
    by_cases h : k' = k
    · have hne' : k' ≠ k2 := fun hc => hne (hc.symm.trans h)
      simp only [setKey, if_pos h, getVal]
      rw [if_neg hne', if_neg hne']
    · simp only [setKey, if_neg h, getVal]
      by_cases h2 : k' = k2
      · simp [h2]
      · simp [h2, getVal_setKey_ne rest k v k2 hne]

theorem hasKey_setKey_iff : ∀ (d : PyDict) (k : String) (v : PyVal) (k2 : String),
    (d.setKey k v).hasKey k2 = true ↔ (d.hasKey k2 = true ∨ k2 = k)
  | .nil, k, v, k2 => by
    simp only [setKey, hasKey, Bool.or_eq_true, beq_iff_eq]
    constructor
    · intro h
      rcases h with h | h
      · exact Or.inr h.symm
      · exact absurd h (by simp)
    · intro h
      rcases h with h | h
      · exact absurd h (by simp [hasKey])
      · exact Or.inl h.symm
  | .cons k' v' rest, k, v, k2 => by
    by_cases h : k' = k
    · subst h
      simp only [setKey, if_pos rfl, hasKey, Bool.or_eq_true, beq_iff_eq]
      constructor
      · intro hc
        exact Or.inl hc
      · intro hc
        rcases hc with hc | hc
        · exact hc
        · exact Or.inl hc.symm
    · simp only [setKey, if_neg h, hasKey, Bool.or_eq_true, beq_iff_eq,
        hasKey_setKey_iff rest k v k2]
      exact or_assoc.symm

theorem getVal_eq_none_of_not_mem_keys : ∀ (d : PyDict) (k : String),
    k ∉ d.keys → d.getVal k = Option.none
  | .nil, _, _ => rfl
  | .cons k' v' rest, k, h => by
    simp only [keys, List.mem_cons, not_or] at h
    have hne : k' ≠ k := fun hc => h.1 hc.symm
    simp [getVal, hne, getVal_eq_none_of_not_mem_keys rest k h.2]

theorem getVal_update_or : ∀ (d2 : PyDict), d2.keys.Nodup → ∀ (d1 : PyDict) (k : String),
    (d1.update d2).getVal k = Option.or (d2.getVal k) (d1.getVal k)
  | .nil, _, d1, k => by simp [update, getVal, Option.or]
  | .cons k0 v0 rest, hnd, d1, k => by
    have hnd' : rest.keys.Nodup := (List.nodup_cons.mp (by simpa [keys] using hnd)).2
    have hk0 : k0 ∉ rest.keys := (List.nodup_cons.mp (by simpa [keys] using hnd)).1
    show (update (setKey d1 k0 v0) rest).getVal k = _
    rw [getVal_update_or rest hnd' (setKey d1 k0 v0) k]
    by_cases h : k = k0
    · subst h
      rw [getVal_eq_none_of_not_mem_keys rest k hk0, getVal_setKey_self]
      simp [getVal, Option.or]
    · have hne : k0 ≠ k := Ne.symm h
      rw [getVal_setKey_ne d1 k0 v0 k h]
      simp [getVal, hne]

theorem setKey_of_getVal_eq : ∀ (d : PyDict) (k : String) (v : PyVal),
    d.getVal k = some v → d.setKey k v = d
  | .nil, k, v, h => by simp [getVal] at h
  | .cons k' v' rest, k, v, h => by
    by_cases hk : k' = k
    · subst hk
      have h' : v' = v := by simpa [getVal] using h
      simp [setKey, h']
    · simp only [getVal, if_neg hk] at h
      simp [setKey, hk, setKey_of_getVal_eq rest k v h]

theorem update_eq_self_of_sub : ∀ (l : PyDict) (d : PyDict),
    (∀ k v, (k, v) ∈ l.toList → d.getVal k = some v) → d.update l = d
  | .nil, d, _ => rfl
  | .cons k0 v0 rest, d, h => by
    have h0 : d.getVal k0 = some v0 := h k0 v0 (by simp [toList])
    show (d.setKey k0 v0).update rest = d
    rw [setKey_of_getVal_eq d k0 v0 h0]
    exact update_eq_self_of_sub rest d (fun k v hm => h k v (by simp [toList, hm]))

theorem mem_keys_of_mem_toList : ∀ (d : PyDict) (k : String) (v : PyVal),
    (k, v) ∈ d.toList → k ∈ d.keys
  | .nil, k, v, h => by simp [toList] at h
  | .cons k' v' rest, k, v, h => by
    simp only [toList, List.mem_cons, Prod.mk.injEq] at h
    rcases h with ⟨h1, _⟩ | h
    · simp [keys, h1]
    · simp [keys, mem_keys_of_mem_toList rest k v h]

theorem getVal_of_mem_toList_nodup : ∀ (d : PyDict), d.keys.Nodup →
    ∀ (k : String) (v : PyVal), (k, v) ∈ d.toList → d.getVal k = some v
  | .nil, _, k, v, h => by simp [toList] at h
  | .cons k' v' rest, hnd, k, v, h => by
    have hnd' : rest.keys.Nodup := (List.nodup_cons.mp (by simpa [keys] using hnd)).2
    have hk' : k' ∉ rest.keys := (List.nodup_cons.mp (by simpa [keys] using hnd)).1
    simp only [toList, List.mem_cons, Prod.mk.injEq] at h
    rcases h with ⟨h1, h2⟩ | h
    · simp [getVal, h1.symm, h2]
    · have hkm : k ∈ rest.keys := mem_keys_of_mem_toList rest k v h
      have hne : k' ≠ k := fun hc => hk' (hc ▸ hkm)
      simp [getVal, hne, getVal_of_mem_toList_nodup rest hnd' k v h]

theorem update_self (d : PyDict) (hnd : d.keys.Nodup) : d.update d = d :=
  update_eq_self_of_sub d d (fun k v hm => getVal_of_mem_toList_nodup d hnd k v hm)

end PyDict

theorem missingKeys_req_dict (xs : PyDict) :
    missingKeys REQUIRED_KEYS (.dict xs) =
      .ok ((if xs.hasKey "name" then [] else ["name"]) ++
           (if xs.hasKey "blender" then [] else ["blender"])) := by
  by_cases h1 : xs.hasKey "name" <;> by_cases h2 : xs.hasKey "blender" <;>
    simp [missingKeys, pyContainsStr, REQUIRED_KEYS, h1, h2]

theorem blinfo_to_json_dict (xs : PyDict) (addon_id source url : String) :
    blinfo_to_json (.dict xs) addon_id source url =
      if xs.hasKey "name" && xs.hasKey "blender" then
        .ok (some (.dict ((xs.setKey "download_url" (.str url)).setKey "source" (.str source))))
      else .ok Option.none := by
  by_cases h1 : xs.hasKey "name" <;> by_cases h2 : xs.hasKey "blender" <;>
    simp [blinfo_to_json, missingKeys_req_dict, missingKeys, pyContainsStr,
      RECOMMENDED_KEYS, h1, h2, PyDict.update]

theorem blinfo_to_json_ok_some (bl : PyVal) (addon_id source url : String) (e : PyVal)
    (h : blinfo_to_json bl addon_id source url = .ok (some e)) :
    ∃ xs : PyDict, bl = .dict xs ∧ xs.hasKey "name" = true ∧ xs.hasKey "blender" = true ∧
      e = .dict ((xs.setKey "download_url" (.str url)).setKey "source" (.str source)) := by
  cases bl with
  | dict xs =>
    rw [blinfo_to_json_dict] at h
    by_cases h1 : xs.hasKey "name"
    · by_cases h2 : xs.hasKey "blender"
      · refine ⟨xs, rfl, h1, h2, ?_⟩
        simp only [h1, h2, Bool.and_self, if_true, Except.ok.injEq, Option.some.injEq] at h
        exact h.symm
      · simp [h1, h2] at h
    · simp [h1] at h
  | str s =>
    exfalso
    simp only [blinfo_to_json, missingKeys, pyContainsStr, REQUIRED_KEYS,
      RECOMMENDED_KEYS] at h
    split at h <;> split at h <;> simp at h
  | list xs =>
    exfalso
    simp only [blinfo_to_json, missingKeys, pyContainsStr, REQUIRED_KEYS,
      RECOMMENDED_KEYS] at h
    split at h <;> split at h <;> simp at h
  | tuple xs =>
    exfalso
    simp only [blinfo_to_json, missingKeys, pyContainsStr, REQUIRED_KEYS,
      RECOMMENDED_KEYS] at h
    split at h <;> split at h <;> simp at h
  | int n => simp [blinfo_to_json, missingKeys, pyContainsStr, REQUIRED_KEYS] at h
  | bool b => simp [blinfo_to_json, missingKeys, pyContainsStr, REQUIRED_KEYS] at h
  | noneVal => simp [blinfo_to_json, missingKeys, pyContainsStr, REQUIRED_KEYS] at h

theorem PyDict.getVal_setKey_cases (d : PyDict) (k : String) (v : PyVal) (k2 : String)
    (w : PyVal) (h : (d.setKey k v).getVal k2 = some w) :
    w = v ∨ d.getVal k2 = some w := by
  by_cases hk : k2 = k
  · subst hk
    rw [PyDict.getVal_setKey_self] at h
    exact Or.inl (Option.some.inj h).symm
  · rw [PyDict.getVal_setKey_ne d k v k2 hk] at h
    exact Or.inr h

theorem blinfo_to_json_ok_hasRequired (bl : PyVal) (addon_id source url : String)
    (e : PyVal) (h : blinfo_to_json bl addon_id source url = .ok (some e)) :
    hasRequiredKeys e = true := by
  obtain ⟨xs, -, h1, h2, he⟩ := blinfo_to_json_ok_some bl addon_id source url e h
  subst he
  simp only [hasRequiredKeys, Bool.and_eq_true]
  constructor
  · exact (PyDict.hasKey_setKey_iff _ _ _ _).mpr
      (Or.inl ((PyDict.hasKey_setKey_iff _ _ _ _).mpr (Or.inl h1)))
  · exact (PyDict.hasKey_setKey_iff _ _ _ _).mpr
      (Or.inl ((PyDict.hasKey_setKey_iff _ _ _ _).mpr (Or.inl h2)))

theorem parse_addons_go_append (s b : String) :
    ∀ (l1 l2 : List (String × PySource × String)) (acc : PyDict),
    parse_addons_go s b (l1 ++ l2) acc =
      match parse_addons_go s b l1 acc with
      | .ok acc2 => parse_addons_go s b l2 acc2
      | .error e => .error e
  | [], l2, acc => rfl
  | (addon_id, fsrc, ext) :: rest, l2, acc => by
    simp only [List.cons_append, parse_addons_go]
    cases hpb : parse_blinfo fsrc with
    | error e => simp
    | ok ob =>
      cases ob with
      | none => simpa using parse_addons_go_append s b rest l2 acc
      | some bl =>
        cases hbj : blinfo_to_json bl addon_id s (urljoin b (addon_id ++ ext)) with
        | error e => simp [hbj]
        | ok oe =>
          cases oe with
          | none => simpa [hbj] using parse_addons_go_append s b rest l2 acc
          | some e2 => simpa [hbj] using parse_addons_go_append s b rest l2 (acc.setKey addon_id e2)

theorem parse_addons_go_getVal_stable (s b : String) :
    ∀ (l : List (String × PySource × String)) (acc d : PyDict) (k : String),
    parse_addons_go s b l acc = .ok d → (∀ u ∈ l, u.1 ≠ k) →
    d.getVal k = acc.getVal k
  | [], acc, d, k, h, _ => by
    simp only [parse_addons_go, Except.ok.injEq] at h
    rw [← h]
  | (addon_id, fsrc, ext) :: rest, acc, d, k, h, hne => by
    have hid : addon_id ≠ k := hne (addon_id, fsrc, ext) (by simp)
    have hrest : ∀ u ∈ rest, u.1 ≠ k := fun u hu => hne u (List.mem_cons_of_mem _ hu)
    simp only [parse_addons_go] at h
    split at h
    · exact absurd h (by simp)
    · exact parse_addons_go_getVal_stable s b rest acc d k h hrest
    · split at h
      · exact absurd h (by simp)
      · exact parse_addons_go_getVal_stable s b rest acc d k h hrest
      · rename_i e2 hbj
        rw [parse_addons_go_getVal_stable s b rest (acc.setKey addon_id e2) d k h hrest]
        exact PyDict.getVal_setKey_ne acc addon_id e2 k (fun hc => hid hc.symm)

theorem parse_addons_go_entries_ok (s b : String) :
    ∀ (l : List (String × PySource × String)) (acc d : PyDict),
    parse_addons_go s b l acc = .ok d →
    (∀ k v, acc.getVal k = some v → hasRequiredKeys v = true) →
    ∀ k v, d.getVal k = some v → hasRequiredKeys v = true
  | [], acc, d, h, hacc => by
    simp only [parse_addons_go, Except.ok.injEq] at h
    rw [← h]
    exact hacc
  | (addon_id, fsrc, ext) :: rest, acc, d, h, hacc => by
    simp only [parse_addons_go] at h
    split at h
    · exact absurd h (by simp)
    · exact parse_addons_go_entries_ok s b rest acc d h hacc
    · split at h
      · exact absurd h (by simp)
      · exact parse_addons_go_entries_ok s b rest acc d h hacc
      · rename_i e2 hbj
        refine parse_addons_go_entries_ok s b rest (acc.setKey addon_id e2) d h ?_
        intro k v hkv
        rcases PyDict.getVal_setKey_cases acc addon_id e2 k v hkv with hv | hv
        · rw [hv]
          exact blinfo_to_json_ok_hasRequired _ addon_id s _ e2 hbj
        · exact hacc k v hv

theorem iter_addons_nil_of_all_hidden : ∀ (entries : List DirEntry),
    (∀ e ∈ entries, startsWithDot e.name = true) → iter_addons entries = []
  | [], _ => rfl
  | e :: rest, h => by
    have he : startsWithDot e.name = true := h e (by simp)
    have ih := iter_addons_nil_of_all_hidden rest (fun x hx => h x (List.mem_cons_of_mem _ hx))
    simpa [iter_addons, List.filterMap_cons, he] using ih

theorem iter_addons_skip_dir_no_init (l1 l2 : List DirEntry) (n : String) :
    iter_addons (l1 ++ DirEntry.dir n Option.none :: l2) = iter_addons (l1 ++ l2) := by
  by_cases hd : startsWithDot n <;>
    simp [iter_addons, List.filterMap_append, List.filterMap_cons, DirEntry.name, hd]

theorem charListLe_total : ∀ (cs ds : List Char),
    charListLe cs ds = true ∨ charListLe ds cs = true
  | [], _ => Or.inl rfl
  | _ :: _, [] => Or.inr rfl
  | c :: cs, d :: ds => by
    by_cases h1 : c.val < d.val
    · left
      simp [charListLe, h1]
    · by_cases h2 : d.val < c.val
      · right
        simp [charListLe, h2]
      · rcases charListLe_total cs ds with h | h
        · left
          simp [charListLe, h1, h2, h]
        · right
          simp [charListLe, h2, h1, h]

theorem strLe_total (s t : String) : strLe s t = true ∨ strLe t s = true :=
  charListLe_total s.data t.data

namespace PyDict

theorem keySortedP_orderedInsert : ∀ (d : PyDict), KeySortedP d →
    ∀ (k : String) (v : PyVal), KeySortedP (d.orderedInsert k v)
  | .nil, _, k, v => ⟨trivial, trivial⟩
  | .cons k' v' rest, hs, k, v => by
    obtain ⟨hhead, hrest⟩ := hs
    by_cases h : strLe k k'
    · simp only [orderedInsert, if_pos h]
      exact ⟨h, hhead, hrest⟩
    · simp only [orderedInsert, if_neg h]
      have hk'k : strLe k' k = true := (strLe_total k k').resolve_left h
      refine ⟨?_, keySortedP_orderedInsert rest hrest k v⟩
      cases rest with
      | nil => simpa [orderedInsert] using hk'k
      | cons k2 v2 r2 =>
        by_cases h2 : strLe k k2
        · simpa [orderedInsert, h2] using hk'k
        · simpa [orderedInsert, h2] using hhead

theorem sortByKey_keySortedP : ∀ (d : PyDict), KeySortedP d.sortByKey
  | .nil => trivial
  | .cons k v rest => keySortedP_orderedInsert _ (sortByKey_keySortedP rest) k v

theorem sortByKey_eq_of_sorted : ∀ (d : PyDict), KeySortedP d → d.sortByKey = d
  | .nil, _ => rfl
  | .cons k v rest, hs => by
    obtain ⟨hhead, hrest⟩ := hs
    show PyDict.orderedInsert k v rest.sortByKey = PyDict.cons k v rest
    rw [sortByKey_eq_of_sorted rest hrest]
    cases rest with
    | nil => rfl
    | cons k2 v2 r2 =>
      have hh : strLe k k2 = true := hhead
      simp [orderedInsert, hh]

theorem sortByKey_idem (d : PyDict) : d.sortByKey.sortByKey = d.sortByKey :=
  sortByKey_eq_of_sorted _ (sortByKey_keySortedP d)

end PyDict

theorem normPairs_orderedInsert : ∀ (d : PyDict) (k : String) (v : PyVal),
    normPairs (d.orderedInsert k v) = (normPairs d).orderedInsert k (normVal v)
  | .nil, k, v => rfl
  | .cons k' v' rest, k, v => by
    by_cases h : strLe k k'
    · simp [PyDict.orderedInsert, h, normPairs]
    · simp [PyDict.orderedInsert, h, normPairs, normPairs_orderedInsert rest k v]

theorem normPairs_sortByKey : ∀ (d : PyDict),
    normPairs d.sortByKey = (normPairs d).sortByKey
  | .nil => rfl
  | .cons k v rest => by
    simp [PyDict.sortByKey, normPairs, normPairs_orderedInsert, normPairs_sortByKey rest]

theorem loadPairs_orderedInsert : ∀ (q : JObj) (k : String) (v : Json),
    loadPairs (JObj.orderedInsert k v q) = (loadPairs q).orderedInsert k (loadVal v)
  | .nil, k, v => rfl
  | .cons k' v' rest, k, v => by
    by_cases h : strLe k k'
    · simp [JObj.orderedInsert, PyDict.orderedInsert, h, loadPairs]
    · simp [JObj.orderedInsert, PyDict.orderedInsert, h, loadPairs,
        loadPairs_orderedInsert rest k v]

theorem loadPairs_sortByKey : ∀ (q : JObj),
    loadPairs (JObj.sortByKey q) = (loadPairs q).sortByKey
  | .nil => rfl
  | .cons k v rest => by
    simp [JObj.sortByKey, PyDict.sortByKey, loadPairs, loadPairs_orderedInsert,
      loadPairs_sortByKey rest]

mutual
theorem load_dump_val : ∀ (v : PyVal), tupleFree v = true → loadVal (dumpVal v) = normVal v
  | .str s, _ => rfl
  | .int n, _ => rfl
  | .bool b, _ => rfl
  | .noneVal, _ => rfl
  | .tuple xs, h => by simp [tupleFree] at h
  | .list xs, h => by
    simp only [tupleFree] at h
    simp [dumpVal, loadVal, normVal, load_dump_list xs h]
  | .dict xs, h => by
    simp only [tupleFree] at h
    simp [dumpVal, loadVal, normVal, loadPairs_sortByKey, load_dump_pairs xs h]
termination_by structural v => v

theorem load_dump_list : ∀ (xs : PyList), tupleFreeList xs = true →
    loadList (dumpList xs) = normList xs
  | .nil, _ => rfl
  | .cons v vs, h => by
    simp only [tupleFreeList, Bool.and_eq_true] at h
    simp [dumpList, loadList, normList, load_dump_val v h.1, load_dump_list vs h.2]
termination_by structural xs => xs

theorem load_dump_pairs : ∀ (d : PyDict), tupleFreePairs d = true →
    loadPairs (dumpPairs d) = normPairs d
  | .nil, _ => rfl
  | .cons k v rest, h => by
    simp only [tupleFreePairs, Bool.and_eq_true] at h
    simp [dumpPairs, loadPairs, normPairs, load_dump_val v h.1, load_dump_pairs rest h.2]
termination_by structural d => d
end

mutual
theorem normVal_idem : ∀ (v : PyVal), normVal (normVal v) = normVal v
  | .str s => rfl
  | .int n => rfl
  | .bool b => rfl
  | .noneVal => rfl
  | .tuple xs => by simp [normVal, normList_idem xs]
  | .list xs => by simp [normVal, normList_idem xs]
  | .dict xs => by
    simp [normVal, normPairs_sortByKey, PyDict.sortByKey_idem, normPairs_idem xs]
termination_by structural v => v

theorem normList_idem : ∀ (xs : PyList), normList (normList xs) = normList xs
  | .nil => rfl
  | .cons v vs => by simp [normList, normVal_idem v, normList_idem vs]
termination_by structural xs => xs

theorem normPairs_idem : ∀ (d : PyDict), normPairs (normPairs d) = normPairs d
  | .nil => rfl
  | .cons k v rest => by simp [normPairs, normVal_idem v, normPairs_idem rest]
termination_by structural d => d
end

theorem findBlinfo_append_skip : ∀ (pre : List Stmt),
    (∀ st ∈ pre, isBlinfoAssign st = false) →
    ∀ (l : List Stmt), findBlinfo (pre ++ l) = findBlinfo l
  | [], _, l => rfl
  | st :: rest, h, l => by
    have hst : isBlinfoAssign st = false := h st (by simp)
    have hrest : ∀ x ∈ rest, isBlinfoAssign x = false :=
      fun x hx => h x (List.mem_cons_of_mem _ hx)
    cases st with
    | otherStmt => simpa [findBlinfo] using findBlinfo_append_skip rest hrest l
    | assign targets value =>
      cases targets with
      | nil => simpa [findBlinfo] using findBlinfo_append_skip rest hrest l
      | cons t ts =>
        cases ts with
        | cons t2 ts2 => simpa [findBlinfo] using findBlinfo_append_skip rest hrest l
        | nil =>
          have hne : ¬ t.getId = "bl_info" := by
            simpa [isBlinfoAssign] using hst
          simpa [findBlinfo, hne] using findBlinfo_append_skip rest hrest l

/-- C1 (counterexample): it is not true that `parse_blinfo` returns a
result (the metadata or a not-found signal) for every source file: on a
module whose `bl_info` assignment has a non-literal right-hand side,
`ast.literal_eval` raises a `ValueError` that `parse_blinfo` does not
catch, so the exception propagates to the caller. -/
theorem c1_counterexample :
    ¬ (∀ src : PySource, ∃ r, parse_blinfo src = .ok r) := by
  intro h
  rcases h sampleBadSource with ⟨r, hr⟩
  have hc : parse_blinfo sampleBadSource = .error "ValueError: malformed node or string" := by
    decide
  rw [hc] at hr
  exact absurd hr (by simp)

/-- C1 (amended): `parse_blinfo` downgrades an unreadable file, a file
with a syntax error, and a module with no `bl_info` assignment to the
not-found signal, but a first `bl_info` assignment whose right-hand side
is not a statically evaluable literal raises `ValueError` to the caller
instead of being downgraded. -/
theorem c1_amended :
    parse_blinfo .undecodable = .ok Option.none ∧
    parse_blinfo .syntaxError = .ok Option.none ∧
    (∀ body : List Stmt, (∀ st ∈ body, isBlinfoAssign st = false) →
      parse_blinfo (.module body) = .ok Option.none) ∧
    (∀ (pre : List Stmt) (t : Target) (e : Expr) (rest : List Stmt),
      (∀ st ∈ pre, isBlinfoAssign st = false) → t.getId = "bl_info" →
      literalEval e = Option.none →
      parse_blinfo (.module (pre ++ Stmt.assign [t] e :: rest)) =
        .error "ValueError: malformed node or string") := by
  refine ⟨rfl, rfl, ?_, ?_⟩
  · intro body h
    show findBlinfo body = .ok Option.none
    have := findBlinfo_append_skip body h []
    rw [List.append_nil] at this
    rw [this]
    rfl
  · intro pre t e rest hpre ht he
    show findBlinfo (pre ++ Stmt.assign [t] e :: rest) = _
    rw [findBlinfo_append_skip pre hpre]
    simp [findBlinfo, ht, he]

/-- Witness for C1 (amended): a module consisting of one unrelated
statement yields the not-found signal, and a module assigning a
non-literal expression to `bl_info` raises `ValueError`. -/
theorem c1_amended_witness :
    parse_blinfo (.module [Stmt.otherStmt]) = .ok Option.none ∧
    parse_blinfo (.module ([] ++ Stmt.assign [Target.ident "bl_info"] Expr.nonLiteral :: [])) =
      .error "ValueError: malformed node or string" :=
  ⟨c1_amended.2.2.1 [Stmt.otherStmt] (by decide),
   c1_amended.2.2.2 [] (Target.ident "bl_info") Expr.nonLiteral [] (by decide) (by decide)
     (by decide)⟩

/-- C2 (counterexample): it is not true that every entry of the written
index document carries both `REQUIRED_KEYS`: merging with an existing
index whose entry `x` has neither key writes that entry back out
unchanged, because entries carried over from a prior index are never
re-validated. -/
theorem c2_counterexample :
    ¬ (∀ (merge : Bool) (indexFile : Option Json) (entries : List DirEntry)
        (s b : String) (out : Json),
        mainRun merge indexFile entries s b = .ok out →
        ∀ k v, (writtenAddons out).getVal k = some v → jsonHasRequiredKeys v = true) := by
  intro h
  have hrun : mainRun true (some samplePriorIndex) [] "internal" "http://localhost:8000/" =
      .ok (.obj (.cons "addons" (.obj (.cons "x" (.obj .nil) .nil))
        (.cons "schema-version" (.int 1) .nil))) := by decide
  have hbad := h true (some samplePriorIndex) [] "internal" "http://localhost:8000/" _
    hrun "x" (.obj .nil) (by decide)
  exact absurd hbad (by decide)

/-- C2 (amended): every entry the directory scan itself produces carries
both `REQUIRED_KEYS` — a declaration missing a required key is dropped by
`blinfo_to_json` and never enters the scanned mapping; entries carried
over from a prior index in merge mode, however, are written back out
without re-validation. -/
theorem c2_amended (entries : List DirEntry) (s b : String) (d : PyDict)
    (h : parse_addons entries s b = .ok d) :
    ∀ k v, d.getVal k = some v → hasRequiredKeys v = true :=
  parse_addons_go_entries_ok s b (iter_addons entries) .nil d h
    (fun _ _ h0 => by simp [PyDict.getVal] at h0)

/-- Witness for C2 (amended): scanning one addon with a complete
`bl_info` yields a mapping whose single entry carries both required
keys. -/
theorem c2_amended_witness :
    hasRequiredKeys (.dict (.cons "name" (.str "Sample Addon")
      (.cons "blender" (.tuple (.cons (.int 2) (.cons (.int 80) .nil)))
      (.cons "download_url" (.str "http://localhost:8000/sample.py")
      (.cons "source" (.str "internal") .nil))))) = true :=
  c2_amended [DirEntry.file "sample.py" sampleSource] "internal" "http://localhost:8000/"
    (.cons "sample" (.dict (.cons "name" (.str "Sample Addon")
      (.cons "blender" (.tuple (.cons (.int 2) (.cons (.int 80) .nil)))
      (.cons "download_url" (.str "http://localhost:8000/sample.py")
      (.cons "source" (.str "internal") .nil))))) .nil)
    (by decide) "sample" _ (by decide)

/-- C3: for a plugin unit whose source declares `bl_info` as a literal
mapping with both required keys, `blinfo_to_json` produces an entry whose
key set is exactly the declaration's keys plus `download_url` and
`source`; every original binding other than those two injected keys is
preserved unchanged (the entry is a shallow copy of the declaration,
which itself is left untouched), and the two injected keys hold the
computed URL and the source label. -/
theorem c3_augment_keyset (src : PySource) (xs : PyDict) (addon_id source url : String)
    (hsrc : parse_blinfo src = .ok (some (.dict xs)))
    (h1 : xs.hasKey "name" = true) (h2 : xs.hasKey "blender" = true) :
    ∃ j : PyDict, blinfo_to_json (.dict xs) addon_id source url = .ok (some (.dict j)) ∧
      (∀ k, j.hasKey k = true ↔
        (xs.hasKey k = true ∨ k = "download_url" ∨ k = "source")) ∧
      (∀ k, k ≠ "download_url" → k ≠ "source" → j.getVal k = xs.getVal k) ∧
      j.getVal "download_url" = some (.str url) ∧
      j.getVal "source" = some (.str source) := by
  refine ⟨(xs.setKey "download_url" (.str url)).setKey "source" (.str source), ?_, ?_, ?_, ?_, ?_⟩
  · rw [blinfo_to_json_dict]
    simp [h1, h2]
  · intro k
    rw [PyDict.hasKey_setKey_iff, PyDict.hasKey_setKey_iff]
    exact or_assoc
  · intro k hdl hsrc2
    rw [PyDict.getVal_setKey_ne _ _ _ _ hsrc2, PyDict.getVal_setKey_ne _ _ _ _ hdl]
  · rw [PyDict.getVal_setKey_ne _ _ _ _ (by decide)]
    exact PyDict.getVal_setKey_self _ _ _
  · exact PyDict.getVal_setKey_self _ _ _

/-- Witness for C3: the sample addon declaration, extracted from its
source and augmented with a concrete URL and source label. -/
theorem c3_augment_keyset_witness :
    ∃ j : PyDict, blinfo_to_json (.dict sampleBlinfo) "sample" "internal"
        "http://localhost:8000/sample.py" = .ok (some (.dict j)) ∧
      (∀ k, j.hasKey k = true ↔
        (sampleBlinfo.hasKey k = true ∨ k = "download_url" ∨ k = "source")) ∧
      (∀ k, k ≠ "download_url" → k ≠ "source" → j.getVal k = sampleBlinfo.getVal k) ∧
      j.getVal "download_url" = some (.str "http://localhost:8000/sample.py") ∧
      j.getVal "source" = some (.str "internal") :=
  c3_augment_keyset sampleSource sampleBlinfo "sample" "internal"
    "http://localhost:8000/sample.py" (by decide) (by decide) (by decide)

/-- C4 (counterexample): it is not true that writing an index document
and reading it back yields an addons mapping Python-equal to the one
written for arbitrary literal metadata values: a `blender` value that is
a tuple is serialized as a JSON array and comes back as a list, which
Python does not consider equal to the tuple. -/
theorem c4_counterexample :
    ¬ (∀ addons : PyDict, ∃ v,
        parse_existing_index (write_index_file (indexDocument addons)) = .ok v ∧
        pyEquiv v (.dict addons)) := by
  intro h
  rcases h (.cons "foo" (.dict sampleBlinfo) .nil) with ⟨v, hv, he⟩
  have hc : parse_existing_index (write_index_file (indexDocument
      (.cons "foo" (.dict sampleBlinfo) .nil))) =
      .ok (.dict (.cons "foo" (.dict (.cons "blender"
        (.list (.cons (.int 2) (.cons (.int 80) .nil)))
        (.cons "name" (.str "Sample Addon") .nil))) .nil)) := by decide
  rw [hc] at hv
  have hveq := Except.ok.inj hv
  rw [← hveq] at he
  have hne : normVal (.dict (.cons "foo" (.dict (.cons "blender"
      (.list (.cons (.int 2) (.cons (.int 80) .nil)))
      (.cons "name" (.str "Sample Addon") .nil))) .nil)) ≠
      normVal (.dict (.cons "foo" (.dict sampleBlinfo) .nil)) := by decide
  exact hne he

/-- C4 (amended): for an addons mapping none of whose values contains a
tuple, writing the index document and reading it back (the schema
version matches by construction) succeeds and yields the canonical
(key-sorted) form of the mapping, which is Python-equal to the mapping
written; tuple values, by contrast, come back as lists. -/
theorem c4_roundtrip_amended (addons : PyDict) (h : tupleFreePairs addons = true) :
    parse_existing_index (write_index_file (indexDocument addons)) =
      .ok (normVal (.dict addons)) ∧
    pyEquiv (normVal (.dict addons)) (.dict addons) := by
  have hdoc : tupleFree (indexDocument addons) = true := by
    simp [indexDocument, tupleFree, tupleFreePairs, h]
  have hld := load_dump_val _ hdoc
  have hn : normVal (indexDocument addons) =
      PyVal.dict (.cons "addons" (normVal (.dict addons))
        (.cons "schema-version" (.int 1) .nil)) := by
    have hs : strLe "schema-version" "addons" = false := by decide
    simp [indexDocument, normVal, normPairs, PyDict.sortByKey, PyDict.orderedInsert, hs,
      CURRENT_SCHEMA_VERSION]
  constructor
  · show parse_existing_index (dumpVal (indexDocument addons)) = _
    unfold parse_existing_index
    rw [hld, hn]
    simp [PyDict.getVal, pyEqInt, CURRENT_SCHEMA_VERSION]
  · exact normVal_idem (.dict addons)

/-- Witness for C4 (amended): a tuple-free sample mapping round-trips to
its canonical form, Python-equal to itself. -/
theorem c4_roundtrip_amended_witness :
    parse_existing_index (write_index_file (indexDocument
      (.cons "foo" (.dict sampleBlinfoNoTuple) .nil))) =
      .ok (normVal (.dict (.cons "foo" (.dict sampleBlinfoNoTuple) .nil))) ∧
    pyEquiv (normVal (.dict (.cons "foo" (.dict sampleBlinfoNoTuple) .nil)))
      (.dict (.cons "foo" (.dict sampleBlinfoNoTuple) .nil)) :=
  c4_roundtrip_amended (.cons "foo" (.dict sampleBlinfoNoTuple) .nil) (by decide)

/-- C5: in merge mode, when the existing index document's
`schema-version` is missing (so the `.get` default `-missing-` is
compared) or not Python-equal to the constant `1`, `parse_existing_index`
raises `ValueError`, the run aborts before anything is scanned or
written, and the pre-existing `index.json` is left untouched. -/
theorem c5_schema_mismatch_aborts (f : Json) (xs : PyDict) (entries : List DirEntry)
    (s b : String) (hload : loadVal f = .dict xs)
    (hsv : pyEqInt ((xs.getVal "schema-version").getD (.str "-missing-"))
      CURRENT_SCHEMA_VERSION = false) :
    mainFileState true (some f) entries s b =
      (some f, .error "ValueError: Unsupported schema") := by
  have hpe : parse_existing_index f = .error "ValueError: Unsupported schema" := by
    unfold parse_existing_index
    rw [hload]
    simp [hsv]
  unfold mainFileState mainRun
  rw [if_pos rfl]
  simp [hpe]

/-- Witness for C5: an existing index with `schema-version: 2` aborts the
merge run with `ValueError` and produces no output (the file keeps its
old content). -/
theorem c5_schema_mismatch_aborts_witness :
    mainFileState true (some sampleSchema2Index) [] "internal" "http://localhost:8000/" =
      (some sampleSchema2Index, .error "ValueError: Unsupported schema") :=
  c5_schema_mismatch_aborts sampleSchema2Index
    (.cons "schema-version" (.int 2) (.cons "addons" (.dict .nil) .nil))
    [] "internal" "http://localhost:8000/" (by decide) (by decide)

/-- C6: merge overlay semantics of `addon_data.update(new_addon_data)`:
every ID present in the newly scanned mapping maps to its new entry
(replacing any old entry with that ID), every ID present only in the
prior mapping keeps its old entry unchanged, and an ID present in
neither is absent from the merged mapping. -/
theorem c6_merge_overlay (old new : PyDict) (hnd : new.keys.Nodup) :
    (∀ k v, new.getVal k = some v → (old.update new).getVal k = some v) ∧
    (∀ k, new.getVal k = Option.none → (old.update new).getVal k = old.getVal k) ∧
    (∀ k, new.getVal k = Option.none → old.getVal k = Option.none →
      (old.update new).getVal k = Option.none) := by
  refine ⟨?_, ?_, ?_⟩
  · intro k v hk
    rw [PyDict.getVal_update_or new hnd old k, hk]
    rfl
  · intro k hk
    rw [PyDict.getVal_update_or new hnd old k, hk]
    rfl
  · intro k hk hk2
    rw [PyDict.getVal_update_or new hnd old k, hk, hk2]
    rfl

/-- Witness for C6: a concrete overlay in which ID `b` is replaced by its
new entry, `a` survives from the prior mapping, and `z` appears in
neither. -/
theorem c6_merge_overlay_witness :
    (∀ k v, (PyDict.cons "b" (.int 3) (.cons "c" (.int 4) .nil)).getVal k = some v →
      ((PyDict.cons "a" (.int 1) (.cons "b" (.int 2) .nil)).update
        (PyDict.cons "b" (.int 3) (.cons "c" (.int 4) .nil))).getVal k = some v) ∧
    (∀ k, (PyDict.cons "b" (.int 3) (.cons "c" (.int 4) .nil)).getVal k = Option.none →
      ((PyDict.cons "a" (.int 1) (.cons "b" (.int 2) .nil)).update
        (PyDict.cons "b" (.int 3) (.cons "c" (.int 4) .nil))).getVal k =
        (PyDict.cons "a" (.int 1) (.cons "b" (.int 2) .nil)).getVal k) ∧
    (∀ k, (PyDict.cons "b" (.int 3) (.cons "c" (.int 4) .nil)).getVal k = Option.none →
      (PyDict.cons "a" (.int 1) (.cons "b" (.int 2) .nil)).getVal k = Option.none →
      ((PyDict.cons "a" (.int 1) (.cons "b" (.int 2) .nil)).update
        (PyDict.cons "b" (.int 3) (.cons "c" (.int 4) .nil))).getVal k = Option.none) :=
  c6_merge_overlay (PyDict.cons "a" (.int 1) (.cons "b" (.int 2) .nil))
    (PyDict.cons "b" (.int 3) (.cons "c" (.int 4) .nil)) (by decide)

/-- C7: merge idempotence — overlaying a freshly produced addons mapping
onto a prior index equal to it yields exactly that mapping (Python dicts
have duplicate-free keys, which is the hypothesis). -/
theorem c7_merge_idempotent (M : PyDict) (hnd : M.keys.Nodup) : M.update M = M :=
  PyDict.update_self M hnd

/-- Witness for C7: a concrete two-entry mapping merged into itself is
unchanged. -/
theorem c7_merge_idempotent_witness :
    (PyDict.cons "a" (.str "x") (.cons "b" (.str "y") .nil)).update
      (PyDict.cons "a" (.str "x") (.cons "b" (.str "y") .nil)) =
      PyDict.cons "a" (.str "x") (.cons "b" (.str "y") .nil) :=
  c7_merge_idempotent (PyDict.cons "a" (.str "x") (.cons "b" (.str "y") .nil)) (by decide)

/-- C8: the scanner skips every directory entry whose name starts with
the hidden-file marker `.` (removing such an entry from the directory
does not change the scan), so a directory containing only hidden
entries produces an empty addons mapping. -/
theorem c8_hidden_entries_skipped :
    (∀ (l1 l2 : List DirEntry) (x : DirEntry) (s b : String),
      startsWithDot x.name = true →
      parse_addons (l1 ++ x :: l2) s b = parse_addons (l1 ++ l2) s b) ∧
    (∀ (entries : List DirEntry) (s b : String),
      (∀ e ∈ entries, startsWithDot e.name = true) →
      parse_addons entries s b = .ok .nil) := by
  constructor
  · intro l1 l2 x s b hx
    unfold parse_addons
    have hiter : iter_addons (l1 ++ x :: l2) = iter_addons (l1 ++ l2) := by
      simp [iter_addons, List.filterMap_append, List.filterMap_cons, hx]
    rw [hiter]
  · intro entries s b h
    unfold parse_addons
    rw [iter_addons_nil_of_all_hidden entries h]
    rfl

/-- Witness for C8: removing the hidden file `.DS_Store.py` from a scan
changes nothing, and a directory holding only `.DS_Store.py` and `.git`
yields the empty mapping. -/
theorem c8_hidden_entries_skipped_witness :
    parse_addons ([] ++ DirEntry.file ".DS_Store.py" (.module []) ::
        [DirEntry.dir ".git" Option.none]) "internal" "http://localhost:8000/" =
      parse_addons ([] ++ [DirEntry.dir ".git" Option.none]) "internal"
        "http://localhost:8000/" ∧
    parse_addons [DirEntry.file ".DS_Store.py" (.module []),
        DirEntry.dir ".git" Option.none] "internal" "http://localhost:8000/" = .ok .nil :=
  ⟨c8_hidden_entries_skipped.1 [] [DirEntry.dir ".git" Option.none]
      (DirEntry.file ".DS_Store.py" (.module [])) "internal" "http://localhost:8000/"
      (by decide),
   c8_hidden_entries_skipped.2 [DirEntry.file ".DS_Store.py" (.module []),
      DirEntry.dir ".git" Option.none] "internal" "http://localhost:8000/" (by decide)⟩

/-- C9: a directory-style plugin without its `__init__.py` entry point is
skipped by the scanner exactly as if it were absent: the scanned unit
list and the produced addons mapping are the same as for the directory
without that entry, so no index entry for it appears, the remaining
entries are still processed, and the run does not fail because of it. -/
theorem c9_dir_without_init_skipped (l1 l2 : List DirEntry) (n : String) (s b : String) :
    iter_addons (l1 ++ DirEntry.dir n Option.none :: l2) = iter_addons (l1 ++ l2) ∧
    parse_addons (l1 ++ DirEntry.dir n Option.none :: l2) s b =
      parse_addons (l1 ++ l2) s b := by
  refine ⟨iter_addons_skip_dir_no_init l1 l2 n, ?_⟩
  unfold parse_addons
  rw [iter_addons_skip_dir_no_init l1 l2 n]

/-- C10 (implicit): when two scanned plugin units yield the same ID, the
Python statement `json_data[addon_id] = as_json` makes the unit processed
later silently replace the earlier one: whenever a successfully parsed
unit with a given ID is followed only by units with other IDs, the final
mapping holds that unit's entry at that ID, whatever earlier units
produced, and the run reports no error. -/
theorem c10_duplicate_id_last_wins (entries : List DirEntry) (s b : String)
    (l1 l2 : List (String × PySource × String)) (addon_id : String) (fsrc : PySource)
    (ext : String) (bl entry : PyVal) (d : PyDict)
    (hiter : iter_addons entries = l1 ++ (addon_id, fsrc, ext) :: l2)
    (hl2 : ∀ u ∈ l2, u.1 ≠ addon_id)
    (hpb : parse_blinfo fsrc = .ok (some bl))
    (hbj : blinfo_to_json bl addon_id s (urljoin b (addon_id ++ ext)) = .ok (some entry))
    (hrun : parse_addons entries s b = .ok d) :
    d.getVal addon_id = some entry := by
  unfold parse_addons at hrun
  rw [hiter, parse_addons_go_append] at hrun
  cases hgo1 : parse_addons_go s b l1 .nil with
  | error e =>
    rw [hgo1] at hrun
    simp at hrun
  | ok acc1 =>
    rw [hgo1] at hrun
    simp only [parse_addons_go, hpb, hbj] at hrun
    rw [parse_addons_go_getVal_stable s b l2 (acc1.setKey addon_id entry) d addon_id
      hrun hl2]
    exact PyDict.getVal_setKey_self acc1 addon_id entry

/-- Witness for C10: a single-file addon `foo.py` and a directory addon
`foo` both scan to ID `foo`; the directory (processed later) wins, and
the final mapping holds its entry. -/
theorem c10_duplicate_id_last_wins_witness :
    (PyDict.cons "foo" (.dict (.cons "name" (.str "B") (.cons "blender" (.str "2.80")
      (.cons "download_url" (.str "http://localhost:8000/foo.zip")
      (.cons "source" (.str "internal") .nil))))) .nil).getVal "foo" =
      some (.dict (.cons "name" (.str "B") (.cons "blender" (.str "2.80")
        (.cons "download_url" (.str "http://localhost:8000/foo.zip")
        (.cons "source" (.str "internal") .nil))))) :=
  c10_duplicate_id_last_wins
    [DirEntry.file "foo.py" (.module [.assign [.ident "bl_info"]
        (.dictLit (.cons "name" (.strLit "A") (.cons "blender" (.strLit "2.80") .nil)))]),
     DirEntry.dir "foo" (some (.module [.assign [.ident "bl_info"]
        (.dictLit (.cons "name" (.strLit "B") (.cons "blender" (.strLit "2.80") .nil)))]))]
    "internal" "http://localhost:8000/"
    [("foo", .module [.assign [.ident "bl_info"]
        (.dictLit (.cons "name" (.strLit "A") (.cons "blender" (.strLit "2.80") .nil)))],
      ".py")]
    [] "foo"
    (.module [.assign [.ident "bl_info"]
        (.dictLit (.cons "name" (.strLit "B") (.cons "blender" (.strLit "2.80") .nil)))])
    ".zip"
    (.dict (.cons "name" (.str "B") (.cons "blender" (.str "2.80") .nil)))
    (.dict (.cons "name" (.str "B") (.cons "blender" (.str "2.80")
      (.cons "download_url" (.str "http://localhost:8000/foo.zip")
      (.cons "source" (.str "internal") .nil)))))
    (.cons "foo" (.dict (.cons "name" (.str "B") (.cons "blender" (.str "2.80")
      (.cons "download_url" (.str "http://localhost:8000/foo.zip")
      (.cons "source" (.str "internal") .nil))))) .nil)
    (by decide) (by decide) (by decide) (by decide) (by decide)
